import Mathlib

set_option autoImplicit false

namespace ChatDocs

/-!
Shallow embedding of the ChatDocs AI-context orchestration layer
(`src/services/geminiService.ts`, `src/App.tsx`,
`src/components/KnowledgeBaseManager.tsx`).

JavaScript strings are modelled as Lean `String` / `List Char`; JS `Error`
objects are modelled by the `JsError` structure; asynchronous operations
are modelled as pure functions from the attempt index (how many times the
operation has been invoked before) to an `Except` outcome, so that an
operation may fail on early attempts and succeed later, exactly as a
flaky network call does.
-/

/-! ### JavaScript string primitives -/

/-- JS whitespace (the ASCII part relevant to `trim` and `\s`). -/
def isWsChar (c : Char) : Bool :=
  c = ' ' || c = '\t' || c = '\n' || c = '\r' || c = '\x0b' || c = '\x0c'

def trimChars (cs : List Char) : List Char :=
  ((cs.dropWhile isWsChar).reverse.dropWhile isWsChar).reverse

/-- Model of `String.prototype.trim`. -/
def trimS (s : String) : String := ⟨trimChars s.data⟩

/-- Substring test `hasSub s pat`: does `s` contain `pat` as a contiguous substring
(model of `String.prototype.includes`)? -/
def hasSub (s pat : List Char) : Bool :=
  match s with
  | [] => pat.isEmpty
  | _ :: t => pat.isPrefixOf s || hasSub t pat

def strIncludes (s pat : String) : Bool := hasSub s.data pat.data

/-! ### JS error values

A JS exception as observed by the service code: optional numeric
`status` / `code` fields, an optional `message`, an optional `type`
field, and whether it is an `instanceof Error`. -/

structure JsError where
  status : Option Nat := none
  code : Option Nat := none
  message : Option String := none
  jsType : Option String := none
  isErrorInstance : Bool := true
  deriving DecidableEq, Repr

/-- JS truthiness of an optional string field (`error?.message && ...`):
`undefined` and the empty string are falsy. -/
def msgTruthy : Option String → Bool
  | none => false
  | some s => !s.isEmpty

def msgOf (e : JsError) : String := e.message.getD ""

/-- The `isQuotaError` test from `retryOperation`
(`src/services/geminiService.ts` lines 47-54). -/
def isQuotaError (e : JsError) : Bool :=
  e.status == some 429 ||
  e.code == some 429 ||
  (msgTruthy e.message &&
    (strIncludes (msgOf e) "429" ||
     strIncludes (msgOf e) "quota" ||
     strIncludes (msgOf e) "RESOURCE_EXHAUSTED"))

/-! ### retryOperation (`src/services/geminiService.ts` lines 43-63)

`op attempt` is the outcome of the `attempt`-th invocation of the wrapped
operation (0-based).  The result records, besides the final outcome, the
list of delays actually awaited (in order) and the number of times the
operation was invoked. -/

def retryOperation {α : Type} (op : Nat → Except JsError α) :
    Nat → Nat → Nat → Except JsError α × List Nat × Nat
  | retries, delay, attempt =>
    match op attempt, retries with
    | Except.ok v, _ => (Except.ok v, [], 1)
    | Except.error e, 0 => (Except.error e, [], 1)
    | Except.error e, r + 1 =>
      if isQuotaError e then
        let res := retryOperation op r (delay * 2) (attempt + 1)
        (res.1, delay :: res.2.1, res.2.2 + 1)
      else (Except.error e, [], 1)

/-- The delays performed by `retryOperation` follow the doubling schedule
`[d, 2d, 4d, ...]` from the configured base delay. -/
theorem retryOperation_delays_double {α : Type} (op : Nat → Except JsError α) :
    ∀ (retries delay attempt : Nat),
      (retryOperation op retries delay attempt).2.1 =
        (List.range (retryOperation op retries delay attempt).2.1.length).map
          (fun i => delay * 2 ^ i) := by
  intro retries
  induction retries with
  | zero =>
    intro delay attempt
    unfold retryOperation
    cases op attempt with
    | ok v => simp
    | error e => simp
  | succ r ih =>
    intro delay attempt
    unfold retryOperation
    cases op attempt with
    | ok v => simp
    | error e =>
      by_cases hq : isQuotaError e = true
      · simp only [hq, if_true]
        have h := ih (delay * 2) (attempt + 1)
        simp only [List.length_cons, List.range_succ_eq_map, List.map_cons,
          List.map_map]
        congr 1
        · simp
        · rw [h]
          simp only [List.length_map, List.length_range]
          apply List.map_congr_left
          intro i _
          simp only [Function.comp_apply, pow_succ]
          ring
      · simp only [Bool.not_eq_true] at hq
        simp [hq]

lemma retryOperation_of_ok {α : Type} (op : Nat → Except JsError α) (r d a : Nat)
    (v : α) (h : op a = Except.ok v) :
    retryOperation op r d a = (Except.ok v, [], 1) := by
  unfold retryOperation
  rw [h]

lemma retryOperation_of_error_stop {α : Type} (op : Nat → Except JsError α) (r d a : Nat)
    (e : JsError) (h : op a = Except.error e) (hs : isQuotaError e = false ∨ r = 0) :
    retryOperation op r d a = (Except.error e, [], 1) := by
  unfold retryOperation
  rw [h]
  cases r with
  | zero => rfl
  | succ r' =>
    rcases hs with hq | hr
    · simp [hq]
    · exact absurd hr (Nat.succ_ne_zero r')

lemma retryOperation_of_error_step {α : Type} (op : Nat → Except JsError α) (r d a : Nat)
    (e : JsError) (h : op a = Except.error e) (hq : isQuotaError e = true) :
    retryOperation op (r + 1) d a =
      ((retryOperation op r (d * 2) (a + 1)).1,
        d :: (retryOperation op r (d * 2) (a + 1)).2.1,
        (retryOperation op r (d * 2) (a + 1)).2.2 + 1) := by
  conv_lhs => unfold retryOperation
  rw [h]
  simp [hq]

/-- C3. `retryOperation` retries exactly on quota-signature errors
(status/code 429 or a message containing `429`/`quota`/`RESOURCE_EXHAUSTED`)
while attempts remain, doubling the delay each retry from the configured
base delay; any other error, or a quota error with no attempts remaining,
is propagated unchanged.  In the scenario of quota errors on attempts 1
and 2 and success on attempt 3 with budget `≥ 3`, the successful result is
returned after exactly 2 delays, the second double the first
(`retryOperation_delays_double` gives the general doubling schedule). -/
theorem retryOperation_retry_policy {α : Type} (op : Nat → Except JsError α) (r d : Nat) :
    (∀ e, op 0 = Except.error e → (isQuotaError e = false ∨ r = 0) →
      retryOperation op r d 0 = (Except.error e, [], 1)) ∧
    (∀ e1 e2 v, op 0 = Except.error e1 → isQuotaError e1 = true →
      op 1 = Except.error e2 → isQuotaError e2 = true →
      op 2 = Except.ok v → 2 ≤ r →
      retryOperation op r d 0 = (Except.ok v, [d, d * 2], 3)) := by
  constructor
  · intro e h hs
    exact retryOperation_of_error_stop op r d 0 e h hs
  · intro e1 e2 v h0 hq1 h1 hq2 h2 hr
    obtain ⟨r2, rfl⟩ : ∃ r2, r = r2 + 1 + 1 := ⟨r - 2, by omega⟩
    rw [retryOperation_of_error_step op (r2 + 1) d 0 e1 h0 hq1,
      retryOperation_of_error_step op r2 (d * 2) 1 e2 h1 hq2,
      retryOperation_of_ok op r2 (d * 2 * 2) 2 v h2]

/-- A quota-signature error (HTTP 429). -/
def quotaErr : JsError := { status := some 429 }

/-- An operation failing with a quota error on its first two invocations
and succeeding on the third. -/
def flakyOp : Nat → Except JsError Nat :=
  fun i => if i < 2 then Except.error quotaErr else Except.ok 42

theorem retryOperation_retry_policy_witness :
    retryOperation flakyOp 3 2000 0 = (Except.ok 42, [2000, 4000], 3) := by
  have h := (retryOperation_retry_policy flakyOp 3 2000).2 quotaErr quotaErr 42
    rfl (by decide) rfl (by decide) rfl (by decide)
  simpa using h

/-! ### handleApiError (`src/services/geminiService.ts` lines 65-81) -/

/-- A `new Error(msg)` value. -/
def mkError (msg : String) : JsError := { message := some msg }

/-- The error rethrown by `handleApiError` for a caught error `e`. -/
def handleApiError (e : JsError) (defaultMsg : String) : JsError :=
  if e.isErrorInstance then
    if msgTruthy e.message && strIncludes (msgOf e) "API key not valid" then
      mkError "Invalid API Key. Please check your GEMINI_API_KEY environment variable."
    else if e.status == some 429 || (msgTruthy e.message && strIncludes (msgOf e) "quota") then
      mkError "API Quota Exceeded. Please try again later or check your billing details."
    else if e.jsType == some "GoogleGenAIError" && msgTruthy e.message then
      mkError ("Gemini API Error: " ++ msgOf e)
    else
      mkError (if msgTruthy e.message then msgOf e else defaultMsg)
  else mkError defaultMsg

/-! ### withFallback (`src/services/geminiService.ts` lines 83-102) -/

def DEFAULT_MODEL_NAME : String := "gemini-2.5-flash"

def FALLBACK_MODEL_NAME : String := "gemini-1.5-flash"

/-- The `isNotFoundError` test from `withFallback` (lines 90-94). -/
def isNotFoundError (e : JsError) : Bool :=
  e.status == some 404 ||
  e.code == some 404 ||
  (msgTruthy e.message && strIncludes (msgOf e) "404") ||
  (msgTruthy e.message && strIncludes (msgOf e) "not found")

/-- Model of `withFallback`: `op model attempt` is the outcome of the
`attempt`-th invocation of the wrapped call against `model`.  Returns the
final outcome together with the number of invocations against the
preferred model and against the fallback model. -/
def withFallback {α : Type} (op : String → Nat → Except JsError α) (preferredModel : String) :
    Except JsError α × Nat × Nat :=
  let first := retryOperation (op preferredModel) 3 2000 0
  match first.1 with
  | Except.ok v => (Except.ok v, first.2.2, 0)
  | Except.error e =>
    if isNotFoundError e then
      let second := retryOperation (op FALLBACK_MODEL_NAME) 3 2000 0
      (second.1, first.2.2, second.2.2)
    else (Except.error e, first.2.2, 0)

/-- C4. A call goes to the preferred model first; exactly when that
attempt (with its retries) fails with a model-not-found signature is the
call retried against the fixed fallback model; any other error propagates
with zero fallback invocations.  With a not-found (non-quota) error on
the preferred model and success on the fallback, the fallback's result is
returned and the preferred model was invoked exactly once. -/
theorem withFallback_policy {α : Type} (op : String → Nat → Except JsError α) (m : String) :
    (∀ e v, op m 0 = Except.error e → isQuotaError e = false → isNotFoundError e = true →
      op FALLBACK_MODEL_NAME 0 = Except.ok v →
      withFallback op m = (Except.ok v, 1, 1)) ∧
    (∀ e ds n, retryOperation (op m) 3 2000 0 = (Except.error e, ds, n) →
      isNotFoundError e = false →
      withFallback op m = (Except.error e, n, 0)) := by
  constructor
  · intro e v h0 hq hnf hfb
    unfold withFallback
    rw [retryOperation_of_error_stop (op m) 3 2000 0 e h0 (Or.inl hq)]
    simp only [hnf, if_true]
    rw [retryOperation_of_ok (op FALLBACK_MODEL_NAME) 3 2000 0 v hfb]
  · intro e ds n h hnf
    unfold withFallback
    rw [h]
    simp [hnf]

/-- A model-not-found error (HTTP 404) as raised for an unknown model. -/
def notFoundErr : JsError := { status := some 404, message := some "model not found" }

/-- An operation that fails with `notFoundErr` on the preferred model and
succeeds on the fallback model. -/
def modelSwitchOp : String → Nat → Except JsError Nat :=
  fun model _ => if model = FALLBACK_MODEL_NAME then Except.ok 7 else Except.error notFoundErr

theorem withFallback_policy_witness :
    withFallback modelSwitchOp "gemini-2.5-flash" = (Except.ok 7, 1, 1) :=
  (withFallback_policy modelSwitchOp "gemini-2.5-flash").1 notFoundErr 7
    rfl (by decide) (by decide) rfl

/-! ### Data model (`src/types.ts`) -/

inductive DocumentCategory where
  | invoice_in
  | invoice_out
  | bank_statement
  | contract
  | fiscal_doc
  | general
  deriving DecidableEq, Repr

/-- The string value of the `DocumentCategory` union member. -/
def DocumentCategory.value : DocumentCategory → String
  | .invoice_in => "invoice_in"
  | .invoice_out => "invoice_out"
  | .bank_statement => "bank_statement"
  | .contract => "contract"
  | .fiscal_doc => "fiscal_doc"
  | .general => "general"

structure LocalDocument where
  id : String
  companyId : String
  name : String
  mimeType : String
  base64Data : String
  category : DocumentCategory
  timestamp : Nat
  deriving DecidableEq, Repr

structure CompanyProfile where
  id : String
  name : String
  cui : String
  regCom : Option String := none
  activity : Option String := none
  foundedYear : Option String := none
  deriving DecidableEq, Repr

structure URLGroup where
  id : String
  name : String
  urls : List String
  deriving DecidableEq, Repr

inductive MindMapComplexity where
  | simple
  | moderate
  | complex
  deriving DecidableEq, Repr

structure UrlContextMetadataItem where
  retrievedUrl : String
  urlRetrievalStatus : String
  deriving DecidableEq, Repr

structure GeminiResponse where
  text : String
  urlContextMetadata : Option (List UrlContextMetadataItem) := none
  deriving DecidableEq, Repr

/-! ### Context assembly (`src/services/geminiService.ts` lines 104-156, 223-249) -/

/-- A content part of the outbound request. -/
inductive Part where
  | inlineData (mimeType : String) (data : String)
  | text (t : String)
  deriving DecidableEq, Repr

/-- Provider-side tool declarations. -/
inductive Tool where
  | urlContext
  deriving DecidableEq, Repr

/-- Model of `String.prototype.toUpperCase` (ASCII). -/
def jsToUpper (s : String) : String := ⟨s.data.map Char.toUpper⟩

/-- The binary part pushed for one document. -/
def docPart (d : LocalDocument) : Part := Part.inlineData d.mimeType d.base64Data

/-- The `docContext` string accumulated by the `forEach` in lines 117-128. -/
def docContextOf (documents : List LocalDocument) : String :=
  if documents.length > 0 then
    documents.foldl
      (fun acc d => acc ++ "- [" ++ jsToUpper d.category.value ++ "] " ++ d.name ++ "\n")
      "Attached Documents:\n"
  else ""

/-- The `fullPrompt` string built in lines 130-137. -/
def fullPromptOf (prompt : String) (urls : List String) (documents : List LocalDocument) :
    String :=
  let fp :=
    if urls.length > 0 then
      prompt ++ "\n\nExternal Legal/Fiscal Sources:\n" ++ String.intercalate "\n" urls
    else prompt
  if !(docContextOf documents).isEmpty then fp ++ "\n\n" ++ docContextOf documents
  else fp

/-- The parts array assembled by `generateContentWithUrlContext`
(inline-data pushes in the document loop, then the single text push of
line 153). -/
def generateContentParts (prompt : String) (urls : List String)
    (documents : List LocalDocument) : List Part :=
  (documents.foldl (fun ps d => ps ++ [docPart d]) []) ++
    [Part.text (fullPromptOf prompt urls documents)]

/-- The tools declaration of line 155: the URL-context tool is requested
iff at least one URL is present. -/
def chatTools (urls : List String) : List Tool :=
  if urls.length > 0 then [Tool.urlContext] else []

def complexityInstruction : MindMapComplexity → String
  | .simple => "Create a HIGH-LEVEL overview of the company's financial status or legal structure."
  | .moderate => "Create a detailed map of financial flows, obligations, or document relationships."
  | .complex => "Create a COMPREHENSIVE audit map breaking down every transaction type, legal obligation, and risk."

def mindMapPromptText (complexity : MindMapComplexity) : String :=
  "Analyze the provided company documents and fiscal context. " ++
    complexityInstruction complexity ++
    " Return ONLY JSON structure: \x7b \"label\": \"Main\", \"children\": [...] \x7d"

/-- The parts array assembled by `generateMindMapFromContext`
(lines 223-249). -/
def mindMapParts (documents : List LocalDocument) (complexity : MindMapComplexity) :
    List Part :=
  (documents.foldl (fun ps d => ps ++ [docPart d]) []) ++
    [Part.text (mindMapPromptText complexity)]

lemma foldl_push_eq_map {β : Type} (f : β → Part) :
    ∀ (l : List β) (init : List Part),
      l.foldl (fun ps d => ps ++ [f d]) init = init ++ l.map f := by
  intro l
  induction l with
  | nil => intro init; simp
  | cons d t ih =>
    intro init
    simp only [List.foldl_cons, List.map_cons]
    rw [ih]
    simp

/-- C2. For every document list `D` and URL list `U`, the parts
sequence emitted by the context assembler is exactly one inline-data part
per document, in document order, followed by exactly one text part, and
nothing else — both for the chat request and for the mind-map request. -/
theorem generateContent_parts_shape (prompt : String) (urls : List String)
    (documents : List LocalDocument) (complexity : MindMapComplexity) :
    generateContentParts prompt urls documents =
      documents.map docPart ++ [Part.text (fullPromptOf prompt urls documents)] ∧
    (generateContentParts prompt urls documents).length = documents.length + 1 ∧
    mindMapParts documents complexity =
      documents.map docPart ++ [Part.text (mindMapPromptText complexity)] := by
  refine ⟨?_, ?_, ?_⟩
  · unfold generateContentParts
    rw [foldl_push_eq_map]
    simp
  · unfold generateContentParts
    rw [foldl_push_eq_map]
    simp
  · unfold mindMapParts
    rw [foldl_push_eq_map]
    simp

/-! ### getInitialSuggestions (`src/services/geminiService.ts` lines 187-214)

`getAiInstance` (lines 20-29) throws when `process.env.API_KEY` is unset
(or empty, both being falsy); this happens *outside* the `try` block of
`getInitialSuggestions`, so that configuration error propagates raw. -/

/-- JS falsiness of the `API_KEY` value (`if (!API_KEY)`). -/
def apiKeyFalsy : Option String → Bool
  | none => true
  | some s => s.isEmpty

/-- The error thrown by `getAiInstance` when the key is missing. -/
def configError : JsError := mkError "Gemini API Key not configured. Set process.env.API_KEY."

/-- The `JSON.stringify` output of the fixed placeholder suggestions (line 189). -/
def placeholderSuggestionsText : String :=
  "\x7b\"suggestions\":[\"Analizează situația fiscală a firmei.\",\"Verifică deductibilitatea facturilor.\",\"Calculează TVA de plată.\"]\x7d"

/-- The `JSON.stringify` output of the empty-suggestions object (line 212). -/
def emptySuggestionsText : String := "\x7b\"suggestions\":[]\x7d"

/-- Model of `getInitialSuggestions`: `op` is the provider call keyed by
invocation index; the `Nat` component counts provider invocations. -/
def getInitialSuggestions (apiKey : Option String) (op : Nat → Except JsError String)
    (urls : List String) : Except JsError GeminiResponse × Nat :=
  if urls.length == 0 then
    (Except.ok { text := placeholderSuggestionsText }, 0)
  else if apiKeyFalsy apiKey then
    (Except.error configError, 0)
  else
    let res := retryOperation op 1 1000 0
    match res.1 with
    | Except.ok t => (Except.ok { text := t }, res.2.2)
    | Except.error _ => (Except.ok { text := emptySuggestionsText }, res.2.2)

/-- C5. With an empty URL list, `getInitialSuggestions` returns the
fixed placeholder suggestions and performs zero network calls — for every
`apiKey` (the provider client is not even touched) and every provider
behaviour `op`. -/
theorem getInitialSuggestions_empty_urls (apiKey : Option String)
    (op : Nat → Except JsError String) :
    getInitialSuggestions apiKey op [] =
      (Except.ok { text := placeholderSuggestionsText }, 0) := rfl

/-- C8 counterexample. With a non-empty URL list but no configured API
key, `getInitialSuggestions` propagates the configuration exception from
`getAiInstance` instead of returning the empty-suggestions result: the
claim that it never propagates an exception is false. -/
theorem getInitialSuggestions_throws_without_key :
    getInitialSuggestions none (fun _ => Except.ok "x") ["http://example.com"] =
      (Except.error configError, 0) := rfl

/-- C8 (amended). Provided the API key is configured (non-falsy), for
every non-empty URL list `getInitialSuggestions` never propagates an
error: it always resolves, and on any failure of the best-effort call it
returns the empty-suggestions result. -/
theorem getInitialSuggestions_never_throws_with_key (apiKey : Option String)
    (op : Nat → Except JsError String) (urls : List String)
    (h : apiKeyFalsy apiKey = false) :
    (∃ resp, (getInitialSuggestions apiKey op urls).1 = Except.ok resp) ∧
    (∀ e ds n, urls ≠ [] → retryOperation op 1 1000 0 = (Except.error e, ds, n) →
      getInitialSuggestions apiKey op urls =
        (Except.ok { text := emptySuggestionsText }, n)) := by
  constructor
  · cases urls with
    | nil => exact ⟨{ text := placeholderSuggestionsText }, rfl⟩
    | cons u t =>
      unfold getInitialSuggestions
      simp only [List.length_cons, h]
      cases hr : (retryOperation op 1 1000 0).1 with
      | ok s => exact ⟨{ text := s }, by simp [hr]⟩
      | error e => exact ⟨{ text := emptySuggestionsText }, by simp [hr]⟩
  · intro e ds n hne hr
    cases urls with
    | nil => exact absurd rfl hne
    | cons u t =>
      unfold getInitialSuggestions
      simp only [List.length_cons, h]
      simp [hr]

/-- A failing provider call (a plain error with no quota signature). -/
def failingOp : Nat → Except JsError String := fun _ => Except.error (mkError "boom")

theorem getInitialSuggestions_never_throws_with_key_witness :
    getInitialSuggestions (some "key") failingOp ["http://example.com"] =
      (Except.ok { text := emptySuggestionsText }, 1) :=
  (getInitialSuggestions_never_throws_with_key (some "key") failingOp
    ["http://example.com"] rfl).2 (mkError "boom") [] 1 (by simp) rfl

/-! ### JSON values and a model of `JSON.parse`

`JSON.parse` is a host builtin; it is modelled here by a standard
recursive-descent parser over the character list (numbers are kept as
their raw source text, which is all the repository ever needs — no
arithmetic is performed on parsed numbers). -/

inductive Json where
  | null
  | bool (b : Bool)
  | num (raw : String)
  | str (s : String)
  | arr (elems : List Json)
  | obj (members : List (String × Json))
  deriving Repr

/-- JSON whitespace accepted by `JSON.parse`. -/
def isJsonWs (c : Char) : Bool := c = ' ' || c = '\t' || c = '\n' || c = '\r'

def skipWsL (cs : List Char) : List Char := cs.dropWhile isJsonWs

/-- Value of one hexadecimal digit, read off the code point. -/
def nibble (c : Char) : Option Nat :=
  let n := c.toNat
  if 48 ≤ n && n ≤ 57 then some (n - 48)
  else if 97 ≤ n && n ≤ 102 then some (n - 87)
  else if 65 ≤ n && n ≤ 70 then some (n - 55)
  else none

/-- Decoding table for single-character string escapes. -/
def escTable : Char → Option Char
  | '"' => some '"'
  | '\\' => some '\\'
  | '/' => some '/'
  | 'b' => some '\x08'
  | 'f' => some '\x0c'
  | 'n' => some '\n'
  | 'r' => some '\r'
  | 't' => some '\t'
  | _ => none

/-- Prepend a decoded character to a string-parse continuation. -/
def withChar (c : Char) (k : Option (List Char × List Char)) :
    Option (List Char × List Char) :=
  k.map (fun p => (c :: p.1, p.2))

/-- Parse the remainder of a JSON string literal (after the opening
quote), returning its decoded content and the rest of the input. -/
def parseStringRest : Nat → List Char → Option (List Char × List Char)
  | 0, _ => none
  | fuel + 1, cs =>
    match cs with
    | [] => none
    | '"' :: rest => some ([], rest)
    | '\\' :: 'u' :: tail =>
      match tail with
      | h1 :: h2 :: h3 :: h4 :: r =>
        match nibble h1, nibble h2, nibble h3, nibble h4 with
        | some a, some b, some c, some d =>
          withChar (Char.ofNat (a * 4096 + b * 256 + c * 16 + d)) (parseStringRest fuel r)
        | _, _, _, _ => none
      | _ => none
    | '\\' :: e :: r =>
      match escTable e with
      | some c => withChar c (parseStringRest fuel r)
      | none => none
    | '\\' :: [] => none
    | c :: rest =>
      if c.toNat < 32 then none
      else withChar c (parseStringRest fuel rest)

def isDigit (c : Char) : Bool := '0' ≤ c && c ≤ '9'

/-- Parse a JSON number, returning its raw text and the rest. -/
def parseNumber (cs : List Char) : Option (List Char × List Char) :=
  let (sign, cs1) :=
    match cs with
    | '-' :: r => (['-'], r)
    | _ => (([] : List Char), cs)
  match cs1 with
  | [] => none
  | c :: _ =>
    if !isDigit c then none
    else
      let intPart := cs1.takeWhile isDigit
      let cs2 := cs1.dropWhile isDigit
      if intPart.length > 1 && intPart.headD '0' = '0' then none
      else
        let (fracPart, cs3) :=
          match cs2 with
          | '.' :: r =>
            if (r.takeWhile isDigit).isEmpty then (([] : List Char), cs2)
            else ('.' :: r.takeWhile isDigit, r.dropWhile isDigit)
          | _ => (([] : List Char), cs2)
        if cs3 ≠ cs2 ∧ fracPart = [] then none
        else
          let (expPart, cs4) :=
            match cs3 with
            | e :: r =>
              if e = 'e' || e = 'E' then
                let (esign, r2) :=
                  match r with
                  | s :: r2 => if s = '+' || s = '-' then ([s], r2) else (([] : List Char), r)
                  | [] => (([] : List Char), r)
                let digits := r2.takeWhile isDigit
                if digits.isEmpty then (([] : List Char), cs3)
                else (e :: (esign ++ digits), r2.dropWhile isDigit)
              else (([] : List Char), cs3)
            | [] => (([] : List Char), cs3)
          some (sign ++ intPart ++ fracPart ++ expPart, cs4)

/-- Recognise a literal keyword continuation (the characters after its
first letter), yielding the input past it. -/
def litKw (kw : List Char) (cs : List Char) : Option (List Char) :=
  if kw.isPrefixOf cs then some (cs.drop kw.length) else none

mutual

/-- Recursive-descent JSON value parser (fuel-indexed). -/
def parseValue : Nat → List Char → Option (Json × List Char)
  | 0, _ => none
  | fuel + 1, cs =>
    match skipWsL cs with
    | [] => none
    | c :: rest =>
      if c = 'n' then (litKw ['u', 'l', 'l'] rest).map (fun r => (Json.null, r))
      else if c = 't' then (litKw ['r', 'u', 'e'] rest).map (fun r => (Json.bool true, r))
      else if c = 'f' then (litKw ['a', 'l', 's', 'e'] rest).map (fun r => (Json.bool false, r))
      else if c = '"' then
        (parseStringRest (rest.length + 1) rest).map (fun p => (Json.str ⟨p.1⟩, p.2))
      else if c = '[' then parseArrayItems fuel rest
      else if c = '\x7b' then parseObjMembers fuel rest
      else (parseNumber (c :: rest)).map (fun p => (Json.num ⟨p.1⟩, p.2))

/-- Parse the items of an array (input starts right after `[`). -/
def parseArrayItems : Nat → List Char → Option (Json × List Char)
  | 0, _ => none
  | fuel + 1, cs =>
    match skipWsL cs with
    | ']' :: rest => some (Json.arr [], rest)
    | cs' =>
      (parseValue fuel cs').bind (fun p =>
        parseArrayTail fuel p.2 [p.1])

/-- Parse `, value`* `]` after at least one array item. -/
def parseArrayTail : Nat → List Char → List Json → Option (Json × List Char)
  | 0, _, _ => none
  | fuel + 1, cs, acc =>
    match skipWsL cs with
    | ']' :: rest => some (Json.arr acc.reverse, rest)
    | ',' :: rest =>
      (parseValue fuel rest).bind (fun p => parseArrayTail fuel p.2 (p.1 :: acc))
    | _ => none

/-- Parse the members of an object (input starts right after the opening
brace). -/
def parseObjMembers : Nat → List Char → Option (Json × List Char)
  | 0, _ => none
  | fuel + 1, cs =>
    match skipWsL cs with
    | '\x7d' :: rest => some (Json.obj [], rest)
    | '"' :: rest =>
      (parseStringRest (rest.length + 1) rest).bind (fun pk =>
        match skipWsL pk.2 with
        | ':' :: r2 =>
          (parseValue fuel r2).bind (fun pv => parseObjTail fuel pv.2 [(⟨pk.1⟩, pv.1)])
        | _ => none)
    | _ => none

/-- Parse `, "key": value`* and the closing brace after at least one
object member. -/
def parseObjTail : Nat → List Char → List (String × Json) → Option (Json × List Char)
  | 0, _, _ => none
  | fuel + 1, cs, acc =>
    match skipWsL cs with
    | '\x7d' :: rest => some (Json.obj acc.reverse, rest)
    | ',' :: rest =>
      (match skipWsL rest with
      | '"' :: r1 =>
        (parseStringRest (r1.length + 1) r1).bind (fun pk =>
          match skipWsL pk.2 with
          | ':' :: r2 =>
            (parseValue fuel r2).bind (fun pv => parseObjTail fuel pv.2 ((⟨pk.1⟩, pv.1) :: acc))
          | _ => none)
      | _ => none)
    | _ => none

end

/-- Model of `JSON.parse`: parse one value and require only whitespace to
remain. -/
def parseJson (s : String) : Option Json :=
  match parseValue (2 * s.data.length + 8) s.data with
  | some (j, rest) => if (skipWsL rest).isEmpty then some j else none
  | none => none

/-! ### Suggestion response normalizer (`src/App.tsx` lines 140-155)

The fence regex `/^```(\w*)?\s*\n?(.*?)\n?\s*```$/s` is applied to the
trimmed response text.  For this pattern, a match exists exactly when the
trimmed text starts and ends with a non-overlapping triple backtick; the
optional greedy `(\w*)?` always takes the maximal word-character run after
the opening fence; the surrounding `\s*\n?` / lazy-`(.*?)`-plus-`\n?\s*`
dance means capture group 2 is the inner content with all leading and
trailing whitespace removed (only whitespace can be absorbed by the
bracketing subpatterns).  `fenceMatchCapture` returns that capture. -/

def isWordChar (c : Char) : Bool :=
  ('a' ≤ c && c ≤ 'z') || ('A' ≤ c && c ≤ 'Z') || ('0' ≤ c && c ≤ '9') || c = '_'

/-- Capture group 2 of the fence regex, when the regex matches. -/
def fenceMatchCapture (t : List Char) : Option (List Char) :=
  if ['`', '`', '`'].isPrefixOf t && ['`', '`', '`'].isSuffixOf t && decide (6 ≤ t.length) then
    some (trimChars (((t.drop 3).take (t.length - 6)).dropWhile isWordChar))
  else none

/-- The `jsonStr` actually passed to `JSON.parse` (lines 142-145): the
trimmed text, with the fence stripped when the regex matched and capture 2
is truthy (non-empty). -/
def normalizeSuggestionText (text : String) : String :=
  let t := trimS text
  match fenceMatchCapture t.data with
  | some inner => if inner.isEmpty then t else trimS ⟨inner⟩
  | none => t

/-- JS truthiness of a parsed JSON value (`if (parsed && ...)`); a number
is falsy exactly when its mantissa carries no nonzero digit. -/
def jsTruthy : Json → Bool
  | Json.null => false
  | Json.bool b => b
  | Json.num raw =>
    (raw.data.takeWhile (fun c => !(c == 'e' || c == 'E'))).any
      (fun c => '1' ≤ c && c ≤ '9')
  | Json.str s => !s.isEmpty
  | Json.arr _ => true
  | Json.obj _ => true

/-- JS property access `parsed.key` (duplicate JSON keys: last wins, as in
`JSON.parse`). -/
def getProp (j : Json) (key : String) : Option Json :=
  match j with
  | Json.obj ms => ms.foldl (fun acc p => if p.1 == key then some p.2 else acc) none
  | _ => none

def asString : Json → Option String
  | Json.str s => some s
  | _ => none

/-- The `suggestionsArray` value computed in lines 139-153: parse the normalized
text, keep the `suggestions` entries of string type (order preserved),
degrading to `[]` on any parse or shape failure. -/
def extractSuggestions (respText : String) : List String :=
  if respText.isEmpty then []
  else
    match parseJson (normalizeSuggestionText respText) with
    | none => []
    | some parsed =>
      if jsTruthy parsed then
        match getProp parsed "suggestions" with
        | some (Json.arr l) => l.filterMap asString
        | _ => []
      else []

/-- The list handed to `setInitialQuerySuggestions` (line 155):
the sanitized array truncated with `.slice(0, 4)`. -/
def fetchAndSetInitialSuggestions (respText : String) : List String :=
  (extractSuggestions respText).take 4

/-- The concrete fenced input of the claim. -/
def fencedExample : String :=
  "```json\n\x7b\"suggestions\":[\"a\",\"b\",\"c\",\"d\",\"e\"]\x7d\n```"

/-- C6. The suggestion normalizer strips an optional code fence (with
or without a language tag) before JSON parsing, discards every non-string
entry of the parsed `suggestions` array, and truncates to at most 4
entries; on the concrete fenced five-string input it yields exactly
`["a", "b", "c", "d"]`. -/
theorem suggestion_normalizer_sanitizes (t : String) :
    (∀ p l, t.isEmpty = false →
      parseJson (normalizeSuggestionText t) = some p →
      jsTruthy p = true →
      getProp p "suggestions" = some (Json.arr l) →
      fetchAndSetInitialSuggestions t = (l.filterMap asString).take 4 ∧
        (fetchAndSetInitialSuggestions t).length ≤ 4) ∧
    normalizeSuggestionText fencedExample =
      "\x7b\"suggestions\":[\"a\",\"b\",\"c\",\"d\",\"e\"]\x7d" ∧
    fetchAndSetInitialSuggestions fencedExample = ["a", "b", "c", "d"] := by
  refine ⟨?_, rfl, rfl⟩
  intro p l hne hp htr hs
  have : fetchAndSetInitialSuggestions t = (l.filterMap asString).take 4 := by
    unfold fetchAndSetInitialSuggestions extractSuggestions
    rw [hne, hp]
    simp [htr, hs]
  refine ⟨this, ?_⟩
  rw [this]
  exact le_trans (List.length_take_le 4 _) (le_refl 4)

theorem suggestion_normalizer_sanitizes_witness :
    fetchAndSetInitialSuggestions fencedExample =
      ([Json.str "a", Json.str "b", Json.str "c", Json.str "d", Json.str "e"].filterMap
        asString).take 4 ∧
    (fetchAndSetInitialSuggestions fencedExample).length ≤ 4 :=
  (suggestion_normalizer_sanitizes fencedExample).1
    (Json.obj [("suggestions",
      Json.arr [Json.str "a", Json.str "b", Json.str "c", Json.str "d", Json.str "e"])])
    [Json.str "a", Json.str "b", Json.str "c", Json.str "d", Json.str "e"]
    rfl rfl rfl rfl

/-! ### generateMindMapFromContext (`src/services/geminiService.ts` lines 216-272) -/

/-- Modelled from the host runtime: `JSON.parse` failure raises a
`SyntaxError` whose message text is engine-specific ("Unexpected token
..."); it is modelled as this fixed marker, which is in particular never
equal to the no-data message. -/
def jsonParseErrMsg : String := "Unexpected token in JSON"

def jsonSyntaxError : JsError := mkError jsonParseErrMsg

/-- Model of `generateMindMapFromContext`: `op` is the provider call,
receiving the assembled parts and the model name. The returned `Json` is
the raw parsed value (the TS code casts it to `MindMapData` without
validation). -/
def generateMindMapFromContext (apiKey : Option String)
    (op : List Part → String → Nat → Except JsError String) (urls : List String)
    (documents : List LocalDocument) (complexity : MindMapComplexity)
    (modelName : String) : Except JsError Json :=
  if apiKeyFalsy apiKey then Except.error configError
  else
    match (withFallback (op (mindMapParts documents complexity)) modelName).1 with
    | Except.error e => Except.error (handleApiError e "Failed to generate mind map.")
    | Except.ok text =>
      if text.isEmpty then
        Except.error (handleApiError (mkError "No data returned for Mind Map")
          "Failed to generate mind map.")
      else
        match parseJson text with
        | none => Except.error (handleApiError jsonSyntaxError "Failed to generate mind map.")
        | some j => Except.ok j

/-- C7 counterexample. A provider response whose text is not valid
JSON makes `generateMindMapFromContext` fail with an error carrying the
JSON parse failure's message — not the "no data" error the claim
asserts. -/
theorem mindMap_invalid_json_not_noData :
    generateMindMapFromContext (some "key") (fun _ _ _ => Except.ok "not json") []
        [] MindMapComplexity.moderate DEFAULT_MODEL_NAME =
      Except.error (mkError jsonParseErrMsg) ∧
    jsonParseErrMsg ≠ "No data returned for Mind Map" :=
  ⟨rfl, by decide⟩

/-- C7 (amended). For a provider response with empty text,
`generateMindMapFromContext` fails with the explicit
"No data returned for Mind Map" error; for non-empty text that is not
valid JSON it fails with an error carrying the parse failure's message
(rethrown through `handleApiError`), not a "no data" error; in both cases
an error is surfaced to the caller, never a silent null/empty tree. -/
theorem mindMap_malformed_response_errors (apiKey : Option String)
    (op : List Part → String → Nat → Except JsError String) (urls : List String)
    (documents : List LocalDocument) (complexity : MindMapComplexity)
    (modelName : String) (text : String)
    (hk : apiKeyFalsy apiKey = false)
    (hop : (withFallback (op (mindMapParts documents complexity)) modelName).1 =
      Except.ok text) :
    (text.isEmpty = true →
      generateMindMapFromContext apiKey op urls documents complexity modelName =
        Except.error (mkError "No data returned for Mind Map")) ∧
    (text.isEmpty = false → parseJson text = none →
      generateMindMapFromContext apiKey op urls documents complexity modelName =
        Except.error (mkError jsonParseErrMsg)) := by
  constructor
  · intro he
    unfold generateMindMapFromContext
    rw [hk, hop]
    simp only [he, if_true, Bool.false_eq_true, if_false]
    congr 1
  · intro he hp
    unfold generateMindMapFromContext
    rw [hk, hop]
    simp only [he, Bool.false_eq_true, if_false, hp]
    congr 1

theorem mindMap_malformed_response_errors_witness :
    generateMindMapFromContext (some "key") (fun _ _ _ => Except.ok "") []
        [] MindMapComplexity.moderate DEFAULT_MODEL_NAME =
      Except.error (mkError "No data returned for Mind Map") :=
  (mindMap_malformed_response_errors (some "key") (fun _ _ _ => Except.ok "") []
    [] MindMapComplexity.moderate DEFAULT_MODEL_NAME "" rfl rfl).1 rfl

/-! ### URL input boundary
(`src/components/KnowledgeBaseManager.tsx` lines 438-457,
`src/App.tsx` lines 54, 169-178) -/

def MAX_URLS : Nat := 20

/-- The case-insensitive scheme test `/^https?:\/\//i`. -/
def startsWithHttpScheme (s : String) : Bool :=
  "http://".data.isPrefixOf (s.data.map Char.toLower) ||
  "https://".data.isPrefixOf (s.data.map Char.toLower)

/-- The `validateUrl` check: `some` an error message when the input is invalid. -/
def validateUrl (urlString : String) : Option String :=
  let trimmed := trimS urlString
  if trimmed.isEmpty then some "URL invalid."
  else if !startsWithHttpScheme trimmed then some "Lipsește http/https."
  else none

/-- The per-group update performed by App's `handleAddUrl` (the body of
the `map` in lines 170-177). -/
def addUrlToGroup (activeUrlGroupId url : String) (g : URLGroup) : URLGroup :=
  if g.id == activeUrlGroupId && g.urls.length < MAX_URLS && !g.urls.contains url then
    { g with urls := g.urls ++ [url] }
  else g

/-- App's `handleAddUrl` state update. -/
def appHandleAddUrl (urlGroups : List URLGroup) (activeUrlGroupId url : String) :
    List URLGroup :=
  urlGroups.map (addUrlToGroup activeUrlGroupId url)

/-- The `currentUrlsForChat` derived state (App.tsx lines 60-61): the active
group's URLs, or `[]` when no group has the active id. -/
def currentUrlsForChat (urlGroups : List URLGroup) (activeUrlGroupId : String) :
    List String :=
  match urlGroups.find? (fun g => g.id == activeUrlGroupId) with
  | some g => g.urls
  | none => []

/-- KnowledgeBaseManager's `handleAddUrl` (validation + size guard against
the `urls` prop, which App wires to `currentUrlsForChat`) composed with
App's `handleAddUrl`: yields the inline error message (if any) and the
resulting group list. -/
def handleAddUrlFlow (urlGroups : List URLGroup) (activeUrlGroupId input : String) :
    Option String × List URLGroup :=
  match validateUrl input with
  | some err => (some err, urlGroups)
  | none =>
    if MAX_URLS ≤ (currentUrlsForChat urlGroups activeUrlGroupId).length then
      (some "Maxim 20 link-uri.", urlGroups)
    else
      (none, appHandleAddUrl urlGroups activeUrlGroupId input)

/-- C9. At the URL-add boundary: empty/whitespace input is rejected,
input without an explicit `http://`/`https://` scheme is rejected, an add
against a full (20-URL) active group is rejected, a URL already present
in a group is never added to it again, and the update preserves both
duplicate-freeness and the 20-URL bound of every group. -/
theorem url_boundary_invariants (urlGroups : List URLGroup) (activeUrlGroupId input : String) :
    ((trimS input).isEmpty = true →
      handleAddUrlFlow urlGroups activeUrlGroupId input = (some "URL invalid.", urlGroups)) ∧
    ((trimS input).isEmpty = false → startsWithHttpScheme (trimS input) = false →
      handleAddUrlFlow urlGroups activeUrlGroupId input =
        (some "Lipsește http/https.", urlGroups)) ∧
    (validateUrl input = none →
      MAX_URLS ≤ (currentUrlsForChat urlGroups activeUrlGroupId).length →
      handleAddUrlFlow urlGroups activeUrlGroupId input = (some "Maxim 20 link-uri.", urlGroups)) ∧
    (∀ g : URLGroup, input ∈ g.urls → addUrlToGroup activeUrlGroupId input g = g) ∧
    (∀ g, g ∈ (handleAddUrlFlow urlGroups activeUrlGroupId input).2 →
      ∃ g0, g0 ∈ urlGroups ∧
        (g0.urls.Nodup → g.urls.Nodup) ∧
        (g0.urls.length ≤ MAX_URLS → g.urls.length ≤ MAX_URLS)) := by
  refine ⟨?_, ?_, ?_, ?_, ?_⟩
  · intro he
    unfold handleAddUrlFlow validateUrl
    simp [he]
  · intro he hs
    unfold handleAddUrlFlow validateUrl
    simp [he, hs]
  · intro hv hfull
    unfold handleAddUrlFlow
    rw [hv]
    simp [hfull]
  · intro g hmem
    unfold addUrlToGroup
    have hc : g.urls.contains input = true := List.elem_iff.mpr hmem
    simp only [hc, Bool.not_true, Bool.and_false, Bool.false_eq_true, if_false]
  · intro g hg
    unfold handleAddUrlFlow at hg
    rcases hv : validateUrl input with _ | err
    · rw [hv] at hg
      simp only at hg
      by_cases hfull : MAX_URLS ≤ (currentUrlsForChat urlGroups activeUrlGroupId).length
      · rw [if_pos hfull] at hg
        exact ⟨g, hg, fun h => h, fun h => h⟩
      · rw [if_neg hfull] at hg
        simp only [appHandleAddUrl, List.mem_map] at hg
        obtain ⟨g0, hg0, rfl⟩ := hg
        refine ⟨g0, hg0, ?_, ?_⟩
        · intro hnd
          unfold addUrlToGroup
          by_cases hc : (g0.id == activeUrlGroupId && g0.urls.length < MAX_URLS &&
              !g0.urls.contains input) = true
          · rw [if_pos hc]
            simp only [Bool.and_eq_true, Bool.not_eq_true'] at hc
            have hnotmem : input ∉ g0.urls := by
              intro hmem
              have h1 : g0.urls.contains input = true := List.elem_iff.mpr hmem
              simp [h1] at hc
              exact hc.2 hmem
            simpa [List.nodup_append] using ⟨hnd, hnotmem⟩
          · rw [if_neg hc]
            exact hnd
        · intro hlen
          unfold addUrlToGroup
          by_cases hc : (g0.id == activeUrlGroupId && g0.urls.length < MAX_URLS &&
              !g0.urls.contains input) = true
          · rw [if_pos hc]
            simp only [Bool.and_eq_true, decide_eq_true_eq] at hc
            simp only [List.length_append, List.length_singleton]
            omega
          · rw [if_neg hc]
            exact hlen
    · rw [hv] at hg
      exact ⟨g, hg, fun h => h, fun h => h⟩

theorem url_boundary_invariants_witness :
    addUrlToGroup "legislatie" "http://example.com"
        { id := "legislatie", name := "Legislație Fiscală (RO)",
          urls := ["http://example.com"] } =
      { id := "legislatie", name := "Legislație Fiscală (RO)",
        urls := ["http://example.com"] } :=
  (url_boundary_invariants [] "legislatie" "http://example.com").2.2.2.1
    { id := "legislatie", name := "Legislație Fiscală (RO)",
      urls := ["http://example.com"] }
    (List.mem_singleton.mpr rfl)

/-! ### Application state (`src/App.tsx`) -/

inductive MessageSender where
  | user
  | model
  | system
  deriving DecidableEq, Repr

structure ChatMessage where
  id : String
  text : String
  sender : MessageSender
  isLoading : Bool := false
  deriving DecidableEq, Repr

structure AppState where
  urlGroups : List URLGroup
  activeUrlGroupId : String
  companies : List CompanyProfile
  activeCompanyId : Option String
  localDocuments : List LocalDocument
  chatMessages : List ChatMessage := []
  isLoading : Bool := false
  isFetchingSuggestions : Bool := false
  initialQuerySuggestions : List String := []
  isSidebarOpen : Bool := false
  isMindMapOpen : Bool := false
  isGeneratingMindMap : Bool := false
  mindMapData : Option Json := none
  selectedModel : String := "gemini-2.5-flash"
  deriving Repr

/-- Derived state `activeCompany` (App.tsx line 57). -/
def activeCompany (s : AppState) : Option CompanyProfile :=
  s.companies.find? (fun c => some c.id == s.activeCompanyId)

/-- Derived state `activeDocuments` (App.tsx line 58): the documents whose
`companyId` equals the active company id. -/
def activeDocuments (s : AppState) : List LocalDocument :=
  s.localDocuments.filter (fun d => some d.companyId == s.activeCompanyId)

/-- Derived state `currentUrlsForChat` on the full state. -/
def currentUrls (s : AppState) : List String :=
  currentUrlsForChat s.urlGroups s.activeUrlGroupId

/-- The argument tuple of the `generateContentWithUrlContext` call inside
`handleSendMessage` (App.tsx line 253). -/
structure ChatRequest where
  prompt : String
  urls : List String
  documents : List LocalDocument
  company : Option CompanyProfile
  modelName : String
  deriving Repr

def handleSendMessageRequest (s : AppState) (query : String) : ChatRequest :=
  { prompt := query
    urls := currentUrls s
    documents := activeDocuments s
    company := activeCompany s
    modelName := s.selectedModel }

/-- The documents argument of the `generateMindMapFromContext` call inside
`handleGenerateMindMap` (App.tsx line 208). -/
def handleGenerateMindMapDocs (s : AppState) : List LocalDocument :=
  activeDocuments s

/-- C1. With multi-company mode active (an active company id is set),
the document list passed to both the chat generator and the mind-map
generator is exactly the set of documents whose `companyId` equals the
active company's id — never a document of another company — and repeated
assembly with unchanged state yields the same list. -/
theorem active_company_document_scoping (s : AppState) (cid : String) (q : String)
    (h : s.activeCompanyId = some cid) :
    (∀ d, d ∈ (handleSendMessageRequest s q).documents ↔
      d ∈ s.localDocuments ∧ d.companyId = cid) ∧
    handleGenerateMindMapDocs s = (handleSendMessageRequest s q).documents ∧
    (∀ (s' : AppState) (q' : String), s'.localDocuments = s.localDocuments →
      s'.activeCompanyId = s.activeCompanyId →
      (handleSendMessageRequest s' q').documents = (handleSendMessageRequest s q).documents) := by
  refine ⟨?_, rfl, ?_⟩
  · intro d
    simp [handleSendMessageRequest, activeDocuments, List.mem_filter, h]
  · intro s' q' hdocs hid
    simp only [handleSendMessageRequest, activeDocuments]
    rw [hdocs, hid]

def companyC1 : CompanyProfile := { id := "c1", name := "Firma Unu", cui := "RO111" }

def companyC2 : CompanyProfile := { id := "c2", name := "Firma Doi", cui := "RO222" }

def docOfC1 : LocalDocument :=
  { id := "d1", companyId := "c1", name := "factura.pdf", mimeType := "application/pdf",
    base64Data := "AAAA", category := DocumentCategory.invoice_in, timestamp := 1 }

def docOfC2 : LocalDocument :=
  { id := "d2", companyId := "c2", name := "extras.pdf", mimeType := "application/pdf",
    base64Data := "BBBB", category := DocumentCategory.bank_statement, timestamp := 2 }

def exState : AppState :=
  { urlGroups := [{ id := "legislatie", name := "Legislație Fiscală (RO)", urls := [] }]
    activeUrlGroupId := "legislatie"
    companies := [companyC1, companyC2]
    activeCompanyId := some "c1"
    localDocuments := [docOfC1, docOfC2] }

theorem active_company_document_scoping_witness :
    docOfC2 ∈ (handleSendMessageRequest exState "q").documents ↔
      docOfC2 ∈ exState.localDocuments ∧ docOfC2.companyId = "c1" :=
  (active_company_document_scoping exState "c1" "q" rfl).1 docOfC2

/-- Model of `handleGenerateMindMap` (App.tsx lines 203-217) as a state
transition: `callResult` is the outcome the provider call would have,
`smallViewport` models `window.innerWidth < 768`; the `Bool` result
records whether the network call was issued. -/
def handleGenerateMindMap (s : AppState) (callResult : Except JsError Json)
    (smallViewport : Bool) : AppState × Bool :=
  if ((currentUrls s).length == 0 && (activeDocuments s).length == 0) ||
      s.isGeneratingMindMap then
    (s, false)
  else
    match callResult with
    | Except.ok data =>
      ({ s with mindMapData := some data
                isMindMapOpen := true
                isSidebarOpen := if smallViewport then false else s.isSidebarOpen
                isGeneratingMindMap := false }, true)
    | Except.error _ => ({ s with isGeneratingMindMap := false }, true)

/-- C10. When the active URL list and the active company's document
list are both empty, or a mind-map generation is already in flight,
`handleGenerateMindMap` is a complete no-op: the state is returned
unchanged (messages, mind-map data and every loading flag included) and
no network call is issued. -/
theorem handleGenerateMindMap_guard_noop (s : AppState) (callResult : Except JsError Json)
    (smallViewport : Bool)
    (h : (currentUrls s = [] ∧ activeDocuments s = []) ∨ s.isGeneratingMindMap = true) :
    handleGenerateMindMap s callResult smallViewport = (s, false) := by
  unfold handleGenerateMindMap
  rcases h with ⟨hu, hd⟩ | hf
  · rw [hu, hd]
    simp
  · rw [hf]
    simp

def exIdleState : AppState :=
  { urlGroups := [{ id := "legislatie", name := "Legislație Fiscală (RO)", urls := [] }]
    activeUrlGroupId := "legislatie"
    companies := [companyC1]
    activeCompanyId := some "c1"
    localDocuments := [docOfC2] }

theorem handleGenerateMindMap_guard_noop_witness :
    handleGenerateMindMap exIdleState (Except.ok Json.null) false = (exIdleState, false) :=
  handleGenerateMindMap_guard_noop exIdleState (Except.ok Json.null) false
    (Or.inl ⟨rfl, rfl⟩)

end ChatDocs
